import Mathlib

/-!
Shallow embedding of the sphinx-design tab component pipeline
(`src/sphinx_design/tabs.py`) and of its asset publisher
(`src/sphinx_design/extension.py`).

Docutils nodes are modelled by the inductive type `Node`: a node kind
string, an attribute record `Attrs` (every attribute the traced code
reads or writes, `none` standing for an absent attribute, so that
reading an absent attribute can be distinguished — in Python such a
read raises `KeyError`), and an ordered child list.

The `uuid4`-based `get_unique_key` of `TabSetHtmlTransform` is modelled
by a monotone counter threaded through the transform: each call yields
the current counter value (a fresh, never-repeated identifier) and
increments it.  Source/line bookkeeping on the generated nodes is not
modelled; warning locations are modelled by storing the offending node
itself in the emitted `Warning`, mirroring `location=item` /
`location=tab_item` in the Python calls.
-/

set_option autoImplicit false

namespace SphinxDesign

/-- Attribute record of a docutils element: every attribute read or
written by `tabs.py` / `extension.py`.  A `none` value models an absent
attribute (in docutils, reading it raises `KeyError`). -/
structure Attrs where
  designComponent : Option String := none
  classes : List String := []
  selected : Option Bool := none
  syncId : Option String := none
  ident : Option Nat := none
  setId : Option Nat := none
  inputType : Option String := none
  checked : Option Bool := none
  inputId : Option Nat := none

/-- A docutils document-tree node: kind tag, attributes, ordered children. -/
inductive Node where
  | mk (kind : String) (attrs : Attrs) (children : List Node)

def Node.kind : Node → String
  | .mk k _ _ => k

def Node.attrs : Node → Attrs
  | .mk _ a _ => a

def Node.children : Node → List Node
  | .mk _ _ c => c

/-- Modelled from the spec: the shared generic component constructor
(`create_component` of `sphinx_design/shared.py`, not under `src/`):
"the tagged generic container type shared by every feature", carrying a
component-kind tag set exactly once at creation, an ordered class list,
flags and ordered children. -/
def create_component (name : String) (classes : List String)
    (children : List Node) (selected : Option Bool := none) : Node :=
  Node.mk "container"
    { designComponent := some name, classes := classes, selected := selected }
    children

/-- Modelled from the spec: the shared component test (`is_component` of
`sphinx_design/shared.py`, not under `src/`): a node is a given design
component exactly when its component-kind tag equals that name. -/
def is_component (n : Node) (name : String) : Bool :=
  n.attrs.designComponent == some name

/-- The two warning subtypes emitted by `tabs.py` (both carry
`type=WARNING_TYPE, subtype="tab"`; we distinguish them by the message). -/
inductive WarnKind where
  | shape
  | multipleSelected
deriving DecidableEq

/-- A logged warning: which message was logged and the node passed as
`location=` in the `LOGGER.warning` call. -/
structure Warning where
  kind : WarnKind
  location : Node

/-- The two ways `TabSetHtmlTransform.apply` can raise on malformed
children: `tab_item["selected"]` raises `KeyError` when the attribute is
absent, and `tab_label, tab_content = tab_item.children` raises
`ValueError` when a child does not have exactly two children. -/
inductive LowerErr where
  | keyError (item : Node)
  | valueError (item : Node)

/-- First loop of `TabSetHtmlTransform.apply` (tabs.py lines 160-173):
scan the children for the first `selected` item, logging one warning per
further selected item.  `sel` is the running `selected_idx` and `idx` the
running enumeration index. -/
def scanSelected : List Node → Option Nat → Nat →
    Except LowerErr (Option Nat × List Warning)
  | [], sel, _ => .ok (sel, [])
  | item :: rest, sel, idx =>
    match item.attrs.selected with
    | none => .error (.keyError item)
    | some b =>
      if b then
        match sel with
        | none => scanSelected rest (some idx) (idx + 1)
        | some s =>
          match scanSelected rest (some s) (idx + 1) with
          | .error e => .error e
          | .ok (r, ws) => .ok (r, Warning.mk WarnKind.multipleSelected item :: ws)
      else scanSelected rest sel (idx + 1)

/-- The `sd_tab_input` node built at tabs.py lines 180-186:
`sd_tab_input("", id=item_id, set_id=set_id, type="radio", checked=...)`. -/
def mkInput (setId itemId : Nat) (checked : Bool) : Node :=
  Node.mk "sd_tab_input"
    { ident := some itemId, setId := some setId,
      inputType := some "radio", checked := some checked }
    []

/-- The `sd_tab_label` node built at tabs.py lines 191-198: it takes over
the authoring label's children (`*tab_label.children`), carries
`input_id` (the `for=` target), the authoring label's class list, and its
`sync_id` when present. -/
def mkLabel (itemId : Nat) (lbl : Node) : Node :=
  Node.mk "sd_tab_label"
    { inputId := some itemId, classes := lbl.attrs.classes,
      syncId := lbl.attrs.syncId }
    lbl.children

/-- Second loop of `TabSetHtmlTransform.apply` (tabs.py lines 175-203):
for each item in order, unpack its (label, content) children, draw a
fresh identifier `c`, and append the input marker, the label marker and
the content node.  `idx` is the enumeration index, `c` the fresh-id
counter. -/
def lowerItems (setId selIdx : Nat) : List Node → Nat → Nat →
    Except LowerErr (List Node × Nat)
  | [], _, c => .ok ([], c)
  | item :: rest, idx, c =>
    match item.children with
    | [lbl, cont] =>
      match lowerItems setId selIdx rest (idx + 1) (c + 1) with
      | .error e => .error e
      | .ok (tail, cEnd) =>
        .ok (mkInput setId c (idx == selIdx) :: mkLabel c lbl :: cont :: tail, cEnd)
    | _ => .error (.valueError item)

/-- Body of `TabSetHtmlTransform.apply` for one tab-set (tabs.py lines
158-205): draw the tab-set identity, scan for the selected index
(defaulting to 0 when none is selected), lower the items, and replace
the tab-set's children with the flat result. -/
def applyTabSet (c : Nat) (n : Node) : Except LowerErr (Node × List Warning × Nat) :=
  match scanSelected n.children none 0 with
  | .error e => .error e
  | .ok (sel, ws) =>
    match lowerItems c (sel.getD 0) n.children 0 (c + 1) with
    | .error e => .error e
    | .ok (cs, cEnd) => .ok (Node.mk n.kind n.attrs cs, ws, cEnd)

mutual

/-- Pre-order traversal collecting every node satisfying
`is_component _ "tab-set"`, as `document.traverse` does before the
transform rewrites each hit. -/
def findTabSets : Node → List Node
  | .mk k a cs =>
    (if Attrs.designComponent a == some "tab-set" then [Node.mk k a cs] else [])
      ++ findTabSetsList cs

/-- Pre-order traversal of a child list for `findTabSets`. -/
def findTabSetsList : List Node → List Node
  | [] => []
  | c :: cs => findTabSets c ++ findTabSetsList cs

end

/-! Closed forms used to characterise the transform in the theorems. -/

/-- The default node used by the total child projections below (never
reached under the well-formedness hypotheses of the theorems). -/
def defaultNode : Node := Node.mk "" {} []

/-- First child of a tab-item: its authoring label node. -/
def labelOf (n : Node) : Node := n.children.headD defaultNode

/-- Second child of a tab-item: its content node. -/
def contentOf (n : Node) : Node := (n.children.drop 1).headD defaultNode

/-- Closed form of `lowerItems` on well-formed items: the flat
concatenation, in original order, of one (input, label, content) triple
per item; item at enumeration index `idx` receives fresh identifier `c`. -/
def flatTriples (setId selIdx : Nat) : List Node → Nat → Nat → List Node
  | [], _, _ => []
  | item :: rest, idx, c =>
    mkInput setId c (idx == selIdx) :: mkLabel c (labelOf item) :: contentOf item ::
      flatTriples setId selIdx rest (idx + 1) (c + 1)

/-- Whether a node's `selected` attribute is present and true. -/
def isSelTrue (n : Node) : Bool := n.attrs.selected == some true

/-- Index (offset by `idx`) of the first child with `selected` true. -/
def firstSelAux : List Node → Nat → Option Nat
  | [], _ => none
  | x :: xs, idx => if isSelTrue x then some idx else firstSelAux xs (idx + 1)

/-- Index of the first child with `selected` true, if any. -/
def firstSel (items : List Node) : Option Nat := firstSelAux items 0

/-- The selected index used by the transform: the first `selected` item,
or 0 when no item is selected. -/
def selIdxOf (items : List Node) : Nat := (firstSel items).getD 0

/-- Well-formedness of a child as the transform requires it: a present
`selected` attribute and exactly two children (label, content).  Every
node built by `TabItemDirective.run` satisfies this. -/
def wfItem (n : Node) : Bool :=
  n.attrs.selected.isSome && (n.children.length == 2)

/-- Warnings of the scan loop once a selected item has been seen: one
per further selected item, in order, located at that item. -/
def multiWarningsAfter : List Node → List Warning
  | [] => []
  | x :: xs =>
    if isSelTrue x then Warning.mk WarnKind.multipleSelected x :: multiWarningsAfter xs
    else multiWarningsAfter xs

/-- Warnings of the whole scan loop: nothing until the first selected
item, then one warning per further selected item. -/
def multiWarnings : List Node → List Warning
  | [] => []
  | x :: xs => if isSelTrue x then multiWarningsAfter xs else multiWarnings xs

/-- The selected items strictly after the first selected item. -/
def selectedAfterFirst : List Node → List Node
  | [] => []
  | x :: xs => if isSelTrue x then xs.filter isSelTrue else selectedAfterFirst xs

/-- The input markers of a lowered child list: every third node. -/
def inputMarkers : List Node → List Node
  | a :: _ :: _ :: rest => a :: inputMarkers rest
  | _ => []

/-- Number of checked input markers in a lowered child list. -/
def checkedCount (cs : List Node) : Nat :=
  (inputMarkers cs).countP (fun n => n.attrs.checked == some true)

/-! Directive builders (`TabSetDirective.run`, `TabItemDirective.run`
from tabs.py, `Div.run` from extension.py).  The host's nested-block and
inline parsers are external: the already-parsed children / inline nodes
are taken as inputs alongside the raw content lines (whose emptiness is
what `assert_has_content` checks). -/

/-- A directive error (`self.error` / `assert_has_content`): the
directive reports it at its source location and produces no node. -/
inductive DirectiveErr where
  | contentRequired (directiveName : String)
  | invalidClass (directiveName : String) (value : String)

/-- Shape-check loop of `TabSetDirective.run` (tabs.py lines 39-48): one
warning at the first child that is not a tab-item, then `break`. -/
def shapeWarnings : List Node → List Warning
  | [] => []
  | c :: cs =>
    if is_component c "tab-item" then shapeWarnings cs
    else [Warning.mk WarnKind.shape c]

/-- `TabSetDirective.run` (tabs.py lines 32-49): require content, build
the tab-set component around the parsed children, shape-check them. -/
def tabSetRun (classOpt : List String) (content : List String)
    (parsed : List Node) : Except DirectiveErr (List Node × List Warning) :=
  if content.isEmpty then .error (.contentRequired "tab-set")
  else
    .ok ([create_component "tab-set" ("sd-tab-set" :: classOpt) parsed],
      shapeWarnings parsed)

/-- The authoring-time inputs of one `tab-item` directive: the parsed
inline label nodes, the parsed block content, and the option values. -/
structure TabItemParams where
  inlineNodes : List Node
  contentNodes : List Node
  selected : Bool
  sync : Option String
  classes : List String
  classLabel : List String
  classContent : List String

/-- The authoring label node (`nodes.rubric`) built at tabs.py lines
92-99: default label class plus the `class-label` overrides, `sync_id`
when the `sync` option is given, the inline label nodes as children. -/
def tabItemLabel (p : TabItemParams) : Node :=
  Node.mk "rubric"
    { classes := "sd-tab-label" :: p.classLabel, syncId := p.sync }
    p.inlineNodes

/-- The content sub-node built at tabs.py lines 104-108. -/
def tabItemContent (p : TabItemParams) : Node :=
  create_component "tab-content" ("sd-tab-content" :: p.classContent) p.contentNodes

/-- The tab-item component built at tabs.py lines 85-109: wrapper
classes, `selected` flag, and the (label, content) children. -/
def tabItemNode (p : TabItemParams) : Node :=
  create_component "tab-item" ("sd-tab-item" :: p.classes)
    [tabItemLabel p, tabItemContent p] (some p.selected)

/-- `TabItemDirective.run` (tabs.py lines 82-111): require content, then
produce the tab-item component. -/
def tabItemRun (content : List String) (p : TabItemParams) :
    Except DirectiveErr (List Node) :=
  if content.isEmpty then .error (.contentRequired "tab-item")
  else .ok [tabItemNode p]

/-- `Div.run` (extension.py lines 121-137): require content, parse the
optional class argument with the host's `directives.class_option`
(modelled as a function returning `none` on the tokens it rejects with
`ValueError`), and build the div component.  A class-parse failure is
reported as a directive error naming the directive and the offending
value. -/
def divRun (classOption : String → Option (List String))
    (argument : Option String) (content : List String)
    (parsed : List Node) : Except DirectiveErr (List Node) :=
  if content.isEmpty then .error (.contentRequired "div")
  else
    match argument with
    | some a =>
      match classOption a with
      | none => .error (.invalidClass "div" a)
      | some classes => .ok [create_component "div" classes parsed]
    | none => .ok [create_component "div" [] parsed]

/-! Asset publisher (`update_css_js` / `update_css_links`,
extension.py lines 59-92).  File names in the static directory are
modelled by `FName`, keeping visible which names the `*.css` glob
matches and which name embeds the stylesheet content hash; the md5
hash itself is the external `hashlib` and is a parameter. -/

/-- A file name in the `_sphinx_design_static` output directory. -/
inductive FName where
  | designJs
  | designCss (hash : String)
  | otherCss (name : String)
  | nonCss (name : String)
deriving DecidableEq

/-- Whether the `static_path.glob("*.css")` pattern matches the name. -/
def isCss : FName → Bool
  | .designCss _ => true
  | .otherCss _ => true
  | _ => false

/-- The build-scoped state touched by the publisher: the
`env.sphinx_design_css_changed` flag, whether the static directory
exists, its files (name, content), and the three append-only
registration lists (`html_static_path`, `add_js_file`, `add_css_file`). -/
structure PublishState where
  cssChanged : Bool
  staticExists : Bool
  files : List (FName × String)
  htmlStaticPath : List String
  jsRefs : List FName
  cssRefs : List FName
deriving DecidableEq

/-- `(static_path / name).exists()`. -/
def hasFile (fs : List (FName × String)) (n : FName) : Bool :=
  fs.any (fun p => p.1 == n)

/-- The stylesheet files on disk (what `glob("*.css")` would list). -/
def cssEntries (fs : List (FName × String)) : List (FName × String) :=
  fs.filter (fun p => isCss p.1)

/-- The script step of `update_css_js` (extension.py lines 69-73): write
`design-tabs.js` only when absent. -/
def jsStep (jsContent : String) (fs : List (FName × String)) : List (FName × String) :=
  if hasFile fs FName.designJs then fs else fs ++ [(FName.designJs, jsContent)]

/-- `update_css_js` (extension.py lines 59-86): reset the changed flag,
remember whether the static dir pre-existed, create it, register the
static path and the script and hashed stylesheet names, write the script
if absent; then, unless the hashed stylesheet already exists, flag the
change when the dir pre-existed, delete every `*.css` file and write the
new one. -/
def update_css_js (md5 : String → String) (cssContent jsContent : String)
    (s : PublishState) : PublishState :=
  let staticExisted := s.staticExists
  let cssName := FName.designCss (md5 cssContent)
  let newFiles := jsStep jsContent s.files
  let base : PublishState :=
    { s with
      cssChanged := false
      staticExists := true
      htmlStaticPath := s.htmlStaticPath ++ ["_sphinx_design_static"]
      jsRefs := s.jsRefs ++ [FName.designJs]
      files := newFiles
      cssRefs := s.cssRefs ++ [cssName] }
  if hasFile newFiles cssName then base
  else
    { base with
      cssChanged := staticExisted
      files := newFiles.filter (fun p => !(isCss p.1)) ++ [(cssName, cssContent)] }

/-- `update_css_links` (extension.py lines 89-92): when the stylesheet
content changed, return every known document name so the host re-renders
all of them; otherwise return nothing (Python implicitly returns None). -/
def update_css_links (allDocs : List String) (s : PublishState) :
    Option (List String) :=
  if s.cssChanged then some allDocs else none

/-! Characterisation lemmas for the lowering transform. -/

theorem wf_selected_isSome {items : List Node} (h : items.all wfItem = true) :
    ∀ n ∈ items, n.attrs.selected.isSome = true := by
  intro n hn
  have hw := List.all_eq_true.mp h n hn
  simp [wfItem] at hw
  exact hw.1

theorem wf_children_two {items : List Node} (h : items.all wfItem = true) :
    ∀ n ∈ items, n.children.length = 2 := by
  intro n hn
  have hw := List.all_eq_true.mp h n hn
  simp [wfItem] at hw
  exact hw.2

theorem scanSelected_some {items : List Node}
    (h : ∀ n ∈ items, n.attrs.selected.isSome = true) (s idx : Nat) :
    scanSelected items (some s) idx = .ok (some s, multiWarningsAfter items) := by
  induction items generalizing idx with
  | nil => rfl
  | cons x xs ih =>
    obtain ⟨b, hb⟩ := Option.isSome_iff_exists.mp (h x (List.mem_cons_self x xs))
    have hxs : ∀ n ∈ xs, n.attrs.selected.isSome = true :=
      fun n hn => h n (List.mem_cons_of_mem _ hn)
    cases b with
    | false => simp [scanSelected, hb, multiWarningsAfter, isSelTrue, ih hxs]
    | true => simp [scanSelected, hb, multiWarningsAfter, isSelTrue, ih hxs]

theorem scanSelected_none {items : List Node}
    (h : ∀ n ∈ items, n.attrs.selected.isSome = true) (idx : Nat) :
    scanSelected items none idx = .ok (firstSelAux items idx, multiWarnings items) := by
  induction items generalizing idx with
  | nil => rfl
  | cons x xs ih =>
    obtain ⟨b, hb⟩ := Option.isSome_iff_exists.mp (h x (List.mem_cons_self x xs))
    have hxs : ∀ n ∈ xs, n.attrs.selected.isSome = true :=
      fun n hn => h n (List.mem_cons_of_mem _ hn)
    cases b with
    | false => simp [scanSelected, hb, firstSelAux, multiWarnings, isSelTrue, ih hxs]
    | true =>
      simp [scanSelected, hb, firstSelAux, multiWarnings, isSelTrue,
        scanSelected_some hxs]

theorem lowerItems_eq {items : List Node}
    (h : ∀ n ∈ items, n.children.length = 2) (setId selIdx idx c : Nat) :
    lowerItems setId selIdx items idx c =
      .ok (flatTriples setId selIdx items idx c, c + items.length) := by
  induction items generalizing idx c with
  | nil => rfl
  | cons x xs ih =>
    obtain ⟨l, cnt, hc⟩ := List.length_eq_two.mp (h x (List.mem_cons_self x xs))
    have hxs : ∀ n ∈ xs, n.children.length = 2 :=
      fun n hn => h n (List.mem_cons_of_mem _ hn)
    have harith : c + 1 + xs.length = c + (xs.length + 1) := by omega
    simp [lowerItems, hc, flatTriples, labelOf, contentOf, ih hxs, harith]

theorem applyTabSet_eq (k : String) (a : Attrs) {items : List Node} (c : Nat)
    (hwf : items.all wfItem = true) :
    applyTabSet c (Node.mk k a items) =
      .ok (Node.mk k a (flatTriples c (selIdxOf items) items 0 (c + 1)),
        multiWarnings items, c + 1 + items.length) := by
  have h1 := wf_selected_isSome hwf
  have h2 := wf_children_two hwf
  simp [applyTabSet, Node.children, Node.kind, Node.attrs,
    scanSelected_none h1 0, lowerItems_eq h2, selIdxOf, firstSel]

theorem flatTriples_length (items : List Node) (setId selIdx : Nat) :
    ∀ idx c, (flatTriples setId selIdx items idx c).length = 3 * items.length := by
  induction items with
  | nil => intro idx c; rfl
  | cons x xs ih =>
    intro idx c
    simp [flatTriples, ih]
    omega

theorem flatTriples_get_input {items : List Node} {i : Nat} (h : i < items.length)
    (setId selIdx : Nat) : ∀ idx c,
    (flatTriples setId selIdx items idx c)[3 * i]? =
      some (mkInput setId (c + i) ((idx + i) == selIdx)) := by
  induction items generalizing i with
  | nil => simp at h
  | cons x xs ih =>
    intro idx c
    cases i with
    | zero => simp [flatTriples]
    | succ j =>
      have hj : j < xs.length := by simpa using h
      have h3 : 3 * (j + 1) = 3 * j + 1 + 1 + 1 := by ring
      have e1 : c + 1 + j = c + (j + 1) := by omega
      have e2 : idx + 1 + j = idx + (j + 1) := by omega
      rw [h3]
      simp [flatTriples, List.getElem?_cons_succ, ih hj (idx + 1) (c + 1), e1, e2]

theorem flatTriples_get_label {items : List Node} {i : Nat} (h : i < items.length)
    (setId selIdx : Nat) : ∀ idx c,
    (flatTriples setId selIdx items idx c)[3 * i + 1]? =
      some (mkLabel (c + i) (labelOf (items.get ⟨i, h⟩))) := by
  induction items generalizing i with
  | nil => simp at h
  | cons x xs ih =>
    intro idx c
    cases i with
    | zero => simp [flatTriples]
    | succ j =>
      have hj : j < xs.length := by simpa using h
      have h3 : 3 * (j + 1) + 1 = 3 * j + 1 + 1 + 1 + 1 := by ring
      have e1 : c + 1 + j = c + (j + 1) := by omega
      rw [h3]
      simp [flatTriples, List.getElem?_cons_succ, ih hj (idx + 1) (c + 1), e1]

theorem flatTriples_get_content {items : List Node} {i : Nat} (h : i < items.length)
    (setId selIdx : Nat) : ∀ idx c,
    (flatTriples setId selIdx items idx c)[3 * i + 2]? =
      some (contentOf (items.get ⟨i, h⟩)) := by
  induction items generalizing i with
  | nil => simp at h
  | cons x xs ih =>
    intro idx c
    cases i with
    | zero => simp [flatTriples]
    | succ j =>
      have hj : j < xs.length := by simpa using h
      have h3 : 3 * (j + 1) + 2 = 3 * j + 2 + 1 + 1 + 1 := by ring
      rw [h3]
      simp [flatTriples, List.getElem?_cons_succ, ih hj (idx + 1) (c + 1)]

theorem checkedCount_flatTriples (items : List Node) (setId selIdx : Nat) :
    ∀ idx c, checkedCount (flatTriples setId selIdx items idx c) =
      if idx ≤ selIdx ∧ selIdx < idx + items.length then 1 else 0 := by
  induction items with
  | nil =>
    intro idx c
    simp [flatTriples, checkedCount, inputMarkers]
    rw [if_neg (by omega)]
  | cons x xs ih =>
    intro idx c
    have hb : ∀ b : Bool, ((some b : Option Bool) == some true) = b := by decide
    have hstep : checkedCount (flatTriples setId selIdx (x :: xs) idx c) =
        (if (idx == selIdx) = true then 1 else 0) +
          checkedCount (flatTriples setId selIdx xs (idx + 1) (c + 1)) := by
      simp [flatTriples, checkedCount, inputMarkers, mkInput, List.countP_cons,
        Node.attrs, hb]
      omega
    rw [hstep, ih (idx + 1) (c + 1)]
    by_cases hsel : idx = selIdx
    · simp [hsel]
    · simp [hsel]
      split_ifs <;> simp_all <;> omega

theorem firstSelAux_lt {items : List Node} {idx r : Nat}
    (h : firstSelAux items idx = some r) : idx ≤ r ∧ r < idx + items.length := by
  induction items generalizing idx with
  | nil => simp [firstSelAux] at h
  | cons x xs ih =>
    by_cases hx : isSelTrue x = true
    · simp [firstSelAux, hx] at h
      subst h
      simp only [List.length_cons]
      omega
    · simp [firstSelAux, hx] at h
      have := ih h
      simp only [List.length_cons]
      omega

theorem selIdxOf_lt {items : List Node} (hne : items.isEmpty = false) :
    selIdxOf items < items.length := by
  unfold selIdxOf firstSel
  cases hfs : firstSelAux items 0 with
  | none =>
    cases items with
    | nil => simp at hne
    | cons _ _ => simp
  | some r =>
    have := firstSelAux_lt hfs
    simp
    omega

theorem firstSelAux_add (items : List Node) (idx : Nat) :
    firstSelAux items idx = (firstSelAux items 0).map (fun r => idx + r) := by
  induction items generalizing idx with
  | nil => rfl
  | cons x xs ih =>
    by_cases hx : isSelTrue x = true
    · simp [firstSelAux, hx]
    · rw [firstSelAux, firstSelAux, if_neg hx, if_neg hx, ih (idx + 1), ih 1]
      cases firstSelAux xs 0 with
      | none => rfl
      | some r => simp; omega

theorem firstSel_unique {items : List Node} {p : Nat} (hp : p < items.length)
    (hone : items.countP isSelTrue = 1)
    (hP : isSelTrue (items.get ⟨p, hp⟩) = true) :
    firstSel items = some p := by
  induction items generalizing p with
  | nil => simp at hp
  | cons x xs ih =>
    by_cases hx : isSelTrue x = true
    · have hcnt : xs.countP isSelTrue = 0 := by
        rw [List.countP_cons, if_pos hx] at hone
        omega
      cases p with
      | zero => simp [firstSel, firstSelAux, hx]
      | succ j =>
        exfalso
        have hj : j < xs.length := by simpa using hp
        have hPj : isSelTrue (xs.get ⟨j, hj⟩) = true := by simpa using hP
        have := List.countP_eq_zero.mp hcnt _ (xs.get_mem j hj)
        simp_all
    · cases p with
      | zero => simp_all
      | succ j =>
        have hj : j < xs.length := by simpa using hp
        have hcnt : xs.countP isSelTrue = 1 := by
          rw [List.countP_cons, if_neg hx] at hone
          omega
        have hPj : isSelTrue (xs.get ⟨j, hj⟩) = true := by simpa using hP
        have hfs := ih hj hcnt hPj
        unfold firstSel at hfs ⊢
        rw [firstSelAux, if_neg hx, firstSelAux_add xs 1, hfs]
        simp [Nat.add_comm]

theorem multiWarningsAfter_eq (items : List Node) :
    multiWarningsAfter items =
      (items.filter isSelTrue).map (fun n => Warning.mk WarnKind.multipleSelected n) := by
  induction items with
  | nil => rfl
  | cons x xs ih =>
    by_cases hx : isSelTrue x = true <;> simp [multiWarningsAfter, hx, ih]

theorem multiWarnings_eq (items : List Node) :
    multiWarnings items =
      (selectedAfterFirst items).map (fun n => Warning.mk WarnKind.multipleSelected n) := by
  induction items with
  | nil => rfl
  | cons x xs ih =>
    by_cases hx : isSelTrue x = true <;>
      simp [multiWarnings, selectedAfterFirst, hx, ih, multiWarningsAfter_eq]

theorem multiWarnings_length {items : List Node}
    (h : 1 ≤ items.countP isSelTrue) :
    (multiWarnings items).length = items.countP isSelTrue - 1 := by
  induction items with
  | nil => simp at h
  | cons x xs ih =>
    by_cases hx : isSelTrue x = true
    · simp [multiWarnings, hx, multiWarningsAfter_eq, List.countP_cons,
        List.countP_eq_length_filter]
    · have h2 : 1 ≤ xs.countP isSelTrue := by
        rw [List.countP_cons, if_neg hx] at h
        omega
      simp [multiWarnings, hx, ih h2, List.countP_cons]

theorem firstSel_isSome_of_countP {items : List Node}
    (h : 1 ≤ items.countP isSelTrue) : ∃ p, firstSel items = some p := by
  induction items with
  | nil => simp at h
  | cons x xs ih =>
    by_cases hx : isSelTrue x = true
    · exact ⟨0, by simp [firstSel, firstSelAux, hx]⟩
    · have h2 : 1 ≤ xs.countP isSelTrue := by
        rw [List.countP_cons, if_neg hx] at h
        omega
      obtain ⟨j, hj⟩ := ih h2
      refine ⟨1 + j, ?_⟩
      unfold firstSel at hj ⊢
      rw [firstSelAux, if_neg hx, firstSelAux_add xs 1, hj]
      rfl

/-! Lemmas on the tab-set directive's shape check. -/

theorem shapeWarnings_of_find {parsed : List Node} {w : Node}
    (h : parsed.find? (fun n => !(is_component n "tab-item")) = some w) :
    shapeWarnings parsed = [Warning.mk WarnKind.shape w] := by
  induction parsed with
  | nil => simp at h
  | cons x xs ih =>
    by_cases hx : is_component x "tab-item" = true
    · rw [List.find?_cons] at h
      simp [hx] at h
      simp [shapeWarnings, hx, ih h]
    · rw [List.find?_cons] at h
      simp [hx] at h
      subst h
      simp [shapeWarnings, hx]

theorem find_nonTabItem_isSome {parsed : List Node}
    (h : parsed.all (fun n => is_component n "tab-item") = false) :
    ∃ w, parsed.find? (fun n => !(is_component n "tab-item")) = some w := by
  induction parsed with
  | nil => simp at h
  | cons x xs ih =>
    by_cases hx : is_component x "tab-item" = true
    · rw [List.all_cons, hx, Bool.true_and] at h
      obtain ⟨w, hw⟩ := ih h
      exact ⟨w, by rw [List.find?_cons]; simp [hx, hw]⟩
    · exact ⟨x, by rw [List.find?_cons]; simp [hx]⟩

/-! Lemmas on the tab-item builder's output. -/

theorem tabItemNode_wf (ps : List TabItemParams) :
    (ps.map tabItemNode).all wfItem = true := by
  rw [List.all_eq_true]
  intro n hn
  rw [List.mem_map] at hn
  obtain ⟨p, _, rfl⟩ := hn
  rfl

theorem labelOf_tabItemNode (p : TabItemParams) :
    labelOf (tabItemNode p) = tabItemLabel p := rfl

theorem contentOf_tabItemNode (p : TabItemParams) :
    contentOf (tabItemNode p) = tabItemContent p := rfl

theorem mkLabel_tabItemLabel (itemId : Nat) (p : TabItemParams) :
    mkLabel itemId (tabItemLabel p) =
      Node.mk "sd_tab_label"
        { inputId := some itemId, classes := "sd-tab-label" :: p.classLabel,
          syncId := p.sync }
        p.inlineNodes := rfl

/-! Lemmas on the asset publisher. -/

theorem isCss_designCss (h : String) : isCss (FName.designCss h) = true := rfl

theorem isCss_designJs : isCss FName.designJs = false := rfl

theorem hasFile_append (fs gs : List (FName × String)) (n : FName) :
    hasFile (fs ++ gs) n = (hasFile fs n || hasFile gs n) := by
  simp [hasFile]

theorem hasFile_jsStep_css (js : String) (fs : List (FName × String)) (h : String) :
    hasFile (jsStep js fs) (FName.designCss h) = hasFile fs (FName.designCss h) := by
  unfold jsStep
  split
  · rfl
  · simp [hasFile_append, hasFile]

theorem hasFile_jsStep_self (js : String) (fs : List (FName × String)) :
    hasFile (jsStep js fs) FName.designJs = true := by
  unfold jsStep
  split
  · assumption
  · simp [hasFile_append, hasFile]

theorem cssEntries_append (fs gs : List (FName × String)) :
    cssEntries (fs ++ gs) = cssEntries fs ++ cssEntries gs := by
  simp [cssEntries]

theorem cssEntries_jsStep (js : String) (fs : List (FName × String)) :
    cssEntries (jsStep js fs) = cssEntries fs := by
  unfold jsStep
  split
  · rfl
  · simp [cssEntries_append, cssEntries, isCss]

theorem hasFile_cons (p : FName × String) (ps : List (FName × String)) (n : FName) :
    hasFile (p :: ps) n = ((p.1 == n) || hasFile ps n) := by
  simp [hasFile]

theorem cssEntries_filter_out (fs : List (FName × String)) :
    cssEntries (fs.filter (fun p => !(isCss p.1))) = [] := by
  induction fs with
  | nil => rfl
  | cons p ps ih =>
    rw [List.filter_cons]
    by_cases hp : isCss p.1 = true
    · rw [if_neg (by simp [hp])]
      exact ih
    · rw [if_pos (by simp [Bool.eq_false_iff.mpr hp])]
      simp only [cssEntries, List.filter_cons]
      rw [if_neg hp]
      exact ih

theorem hasFile_eq_hasFile_cssEntries {n : FName} (hn : isCss n = true)
    (fs : List (FName × String)) : hasFile fs n = hasFile (cssEntries fs) n := by
  induction fs with
  | nil => rfl
  | cons p ps ih =>
    by_cases hp : isCss p.1 = true
    · simp only [cssEntries, List.filter_cons]
      rw [if_pos hp, hasFile_cons, hasFile_cons]
      simp only [cssEntries] at ih
      rw [ih]
    · have hne : (p.1 == n) = false := by
        cases hEq : p.1 == n
        · rfl
        · exfalso
          have hpn : p.1 = n := eq_of_beq hEq
          rw [hpn, hn] at hp
          exact hp rfl
      simp only [cssEntries, List.filter_cons]
      rw [if_neg hp, hasFile_cons, hne, Bool.false_or]
      simp only [cssEntries] at ih
      rw [ih]

theorem hasFile_filter_nonCss {fs : List (FName × String)} {n : FName}
    (hn : isCss n = false) (h : hasFile fs n = true) :
    hasFile (fs.filter (fun p => !(isCss p.1))) n = true := by
  induction fs with
  | nil => simp [hasFile] at h
  | cons p ps ih =>
    rw [hasFile_cons] at h
    rw [List.filter_cons]
    by_cases hEq : (p.1 == n) = true
    · have hp1 : isCss p.1 = false := by rw [eq_of_beq hEq, hn]
      rw [if_pos (by simp [hp1]), hasFile_cons, hEq, Bool.true_or]
    · have hEq2 : (p.1 == n) = false := Bool.eq_false_iff.mpr hEq
      rw [hEq2, Bool.false_or] at h
      by_cases hp : isCss p.1 = true
      · rw [if_neg (by simp [hp])]
        exact ih h
      · rw [if_pos (by simp [Bool.eq_false_iff.mpr hp]), hasFile_cons, hEq2, Bool.false_or]
        exact ih h

/-- Publishing path of `update_css_js`: when no file with the hashed
name exists, the flag becomes "did the static dir pre-exist", every
`*.css` file is deleted and the new hashed stylesheet is written. -/
theorem update_css_js_publish {md5 : String → String} {css js : String}
    {s : PublishState}
    (habs : hasFile s.files (FName.designCss (md5 css)) = false) :
    update_css_js md5 css js s =
      { s with
        cssChanged := s.staticExists
        staticExists := true
        htmlStaticPath := s.htmlStaticPath ++ ["_sphinx_design_static"]
        jsRefs := s.jsRefs ++ [FName.designJs]
        files := (jsStep js s.files).filter (fun p => !(isCss p.1)) ++
          [(FName.designCss (md5 css), css)]
        cssRefs := s.cssRefs ++ [FName.designCss (md5 css)] } := by
  have hcond : hasFile (jsStep js s.files) (FName.designCss (md5 css)) = false := by
    rw [hasFile_jsStep_css, habs]
  simp only [update_css_js]
  rw [hcond]
  rfl

/-- Early-return path of `update_css_js`: when the hashed stylesheet is
already on disk, nothing is deleted or written and the flag stays false. -/
theorem update_css_js_early {md5 : String → String} {css js : String}
    {s : PublishState}
    (hpres : hasFile s.files (FName.designCss (md5 css)) = true) :
    update_css_js md5 css js s =
      { s with
        cssChanged := false
        staticExists := true
        htmlStaticPath := s.htmlStaticPath ++ ["_sphinx_design_static"]
        jsRefs := s.jsRefs ++ [FName.designJs]
        files := jsStep js s.files
        cssRefs := s.cssRefs ++ [FName.designCss (md5 css)] } := by
  have hcond : hasFile (jsStep js s.files) (FName.designCss (md5 css)) = true := by
    rw [hasFile_jsStep_css, hpres]
  simp only [update_css_js]
  rw [hcond]
  rfl

/-! Concrete fixtures used by the witnesses and counterexamples. -/

/-- A plain paragraph node: what a non-tab-item child of a tab-set looks
like (no `selected` attribute, no design-component tag). -/
def paraNode : Node := Node.mk "paragraph" {} []

/-- An authoring tab label as `TabItemDirective.run` builds it (no sync). -/
def witLabel : Node := Node.mk "rubric" { classes := ["sd-tab-label"] } []

/-- An authoring tab content node. -/
def witContent : Node := create_component "tab-content" ["sd-tab-content"] []

/-- A directive-built tab-item with the given `selected` flag. -/
def witItem (sel : Bool) : Node :=
  create_component "tab-item" ["sd-tab-item"] [witLabel, witContent] (some sel)

/-- The attributes of a directive-built tab-set. -/
def witSetAttrs : Attrs := { designComponent := some "tab-set", classes := ["sd-tab-set"] }

/-- Two tab items, the second one selected. -/
def witItems : List Node := [witItem false, witItem true]

/-- Three tab items with two `selected` flags (positions 0 and 2). -/
def witItems3 : List Node := [witItem true, witItem false, witItem true]

/-- A tab-set whose only child is a paragraph, not a tab-item. -/
def badTabSet : Node := create_component "tab-set" ["sd-tab-set"] [paraNode]

/-- A one-item tab-set. -/
def witSet1 : Node := create_component "tab-set" ["sd-tab-set"] [witItem false]

/-- The result of lowering `witSet1` starting from counter 0. -/
def witOnceLowered : Node :=
  Node.mk "container" { designComponent := some "tab-set", classes := ["sd-tab-set"] }
    [mkInput 0 1 true, mkLabel 1 witLabel, witContent]

/-! The claim theorems. -/

/-- C1: for every tab-set with at least one tab-item child (each child
carrying a `selected` flag and a (label, content) pair, as every
directive-built tab-item does), lowering marks input marker `i` as
checked exactly when `i` equals the selected index — the first item
whose `selected` flag is true, or 0 when none is.  The selected index is
in range, so exactly one input marker per tab-set is checked
(`checkedCount cs = 1`), and when exactly one item is marked selected,
at position `p`, the selected index is `p`, independent of position. -/
theorem tab_lowering_checked_iff_selected (k : String) (a : Attrs)
    (items : List Node) (c : Nat)
    (hwf : items.all wfItem = true) (hne : items.isEmpty = false) :
    ∃ cs ws cEnd,
      applyTabSet c (Node.mk k a items) = .ok (Node.mk k a cs, ws, cEnd) ∧
      selIdxOf items < items.length ∧
      (∀ i, i < items.length →
        cs[3 * i]? = some (mkInput c (c + 1 + i) (i == selIdxOf items))) ∧
      checkedCount cs = 1 ∧
      (∀ p, (hp : p < items.length) → items.countP isSelTrue = 1 →
        isSelTrue (items.get ⟨p, hp⟩) = true → selIdxOf items = p) := by
  refine ⟨flatTriples c (selIdxOf items) items 0 (c + 1), multiWarnings items,
    c + 1 + items.length, applyTabSet_eq k a c hwf, selIdxOf_lt hne, ?_, ?_, ?_⟩
  · intro i hi
    simpa using flatTriples_get_input hi c (selIdxOf items) 0 (c + 1)
  · rw [checkedCount_flatTriples items c (selIdxOf items) 0 (c + 1)]
    have hlt := selIdxOf_lt hne
    rw [if_pos ⟨Nat.zero_le _, by omega⟩]
  · intro p hp hone hsel
    have := firstSel_unique hp hone hsel
    simp [selIdxOf, this]

/-- C1 witness: the two-item tab-set with the second item selected. -/
theorem tab_lowering_checked_iff_selected_witness :
    witItems.all wfItem = true ∧ witItems.isEmpty = false ∧
    (∃ cs ws cEnd,
      applyTabSet 0 (Node.mk "container" witSetAttrs witItems) =
        .ok (Node.mk "container" witSetAttrs cs, ws, cEnd) ∧
      selIdxOf witItems < witItems.length ∧
      (∀ i, i < witItems.length →
        cs[3 * i]? = some (mkInput 0 (0 + 1 + i) (i == selIdxOf witItems))) ∧
      checkedCount cs = 1 ∧
      (∀ p, (hp : p < witItems.length) → witItems.countP isSelTrue = 1 →
        isSelTrue (witItems.get ⟨p, hp⟩) = true → selIdxOf witItems = p)) :=
  ⟨by decide, by decide, tab_lowering_checked_iff_selected "container" witSetAttrs
    witItems 0 (by decide) (by decide)⟩

/-- C2: lowering a well-formed tab-set replaces its children by the flat
concatenation, in original child order, of one (input, label, content)
triple per item — `3 n` children in total.  Every input marker carries
the tab-set's fresh identity `c` as its `setId` (the shared group id)
and fresh item identity `c + 1 + i`; the label marker of item `i`
carries `inputId = c + 1 + i` (the same fresh id as its input), the
authoring label's class list and children, and its `syncId` when
present (see `mkLabel`); the item's original content node is placed
unchanged; the tab-item wrapper nodes themselves appear nowhere. -/
theorem tab_lowering_flat_triple_structure (k : String) (a : Attrs)
    (items : List Node) (c : Nat) (hwf : items.all wfItem = true) :
    applyTabSet c (Node.mk k a items) =
      .ok (Node.mk k a (flatTriples c (selIdxOf items) items 0 (c + 1)),
        multiWarnings items, c + 1 + items.length) ∧
    (flatTriples c (selIdxOf items) items 0 (c + 1)).length = 3 * items.length ∧
    (∀ i, (h : i < items.length) →
      (flatTriples c (selIdxOf items) items 0 (c + 1))[3 * i]? =
        some (mkInput c (c + 1 + i) (i == selIdxOf items)) ∧
      (flatTriples c (selIdxOf items) items 0 (c + 1))[3 * i + 1]? =
        some (mkLabel (c + 1 + i) (labelOf (items.get ⟨i, h⟩))) ∧
      (flatTriples c (selIdxOf items) items 0 (c + 1))[3 * i + 2]? =
        some (contentOf (items.get ⟨i, h⟩))) := by
  refine ⟨applyTabSet_eq k a c hwf,
    flatTriples_length items c (selIdxOf items) 0 (c + 1),
    fun i h => ⟨?_, ?_, ?_⟩⟩
  · simpa using flatTriples_get_input h c (selIdxOf items) 0 (c + 1)
  · exact flatTriples_get_label h c (selIdxOf items) 0 (c + 1)
  · exact flatTriples_get_content h c (selIdxOf items) 0 (c + 1)

/-- C2 witness: the two-item tab-set, group identity 3. -/
theorem tab_lowering_flat_triple_structure_witness :
    witItems.all wfItem = true ∧
    (applyTabSet 3 (Node.mk "container" witSetAttrs witItems) =
      .ok (Node.mk "container" witSetAttrs
        (flatTriples 3 (selIdxOf witItems) witItems 0 (3 + 1)),
        multiWarnings witItems, 3 + 1 + witItems.length) ∧
    (flatTriples 3 (selIdxOf witItems) witItems 0 (3 + 1)).length =
      3 * witItems.length ∧
    (∀ i, (h : i < witItems.length) →
      (flatTriples 3 (selIdxOf witItems) witItems 0 (3 + 1))[3 * i]? =
        some (mkInput 3 (3 + 1 + i) (i == selIdxOf witItems)) ∧
      (flatTriples 3 (selIdxOf witItems) witItems 0 (3 + 1))[3 * i + 1]? =
        some (mkLabel (3 + 1 + i) (labelOf (witItems.get ⟨i, h⟩))) ∧
      (flatTriples 3 (selIdxOf witItems) witItems 0 (3 + 1))[3 * i + 2]? =
        some (contentOf (witItems.get ⟨i, h⟩)))) :=
  ⟨by decide, tab_lowering_flat_triple_structure "container" witSetAttrs
    witItems 3 (by decide)⟩

/-- C3: for every well-formed tab-set with two or more items marked
`selected`, lowering does not abort, emits exactly one warning per
selected item after the first — the warning list is exactly the
selected items strictly after the first, in order, each warning located
at that item — and the first selected item `p` is the checked one. -/
theorem tab_lowering_multiple_selected_warnings (k : String) (a : Attrs)
    (items : List Node) (c : Nat)
    (hwf : items.all wfItem = true) (hmulti : 2 ≤ items.countP isSelTrue) :
    ∃ p,
      firstSel items = some p ∧
      applyTabSet c (Node.mk k a items) =
        .ok (Node.mk k a (flatTriples c (selIdxOf items) items 0 (c + 1)),
          multiWarnings items, c + 1 + items.length) ∧
      multiWarnings items =
        (selectedAfterFirst items).map (fun n => Warning.mk WarnKind.multipleSelected n) ∧
      (multiWarnings items).length = items.countP isSelTrue - 1 ∧
      (flatTriples c (selIdxOf items) items 0 (c + 1))[3 * p]? =
        some (mkInput c (c + 1 + p) true) := by
  obtain ⟨p, hp⟩ := @firstSel_isSome_of_countP items (by omega)
  have hplt : p < items.length := by
    have := firstSelAux_lt (show firstSelAux items 0 = some p from hp)
    omega
  have hsel : selIdxOf items = p := by simp [selIdxOf, hp]
  refine ⟨p, hp, applyTabSet_eq k a c hwf, multiWarnings_eq items,
    @multiWarnings_length items (by omega), ?_⟩
  have := flatTriples_get_input hplt c (selIdxOf items) 0 (c + 1)
  simpa [hsel] using this

/-- C3 witness: three items with `selected` at positions 0 and 2. -/
theorem tab_lowering_multiple_selected_warnings_witness :
    witItems3.all wfItem = true ∧ 2 ≤ witItems3.countP isSelTrue ∧
    (∃ p,
      firstSel witItems3 = some p ∧
      applyTabSet 0 (Node.mk "container" witSetAttrs witItems3) =
        .ok (Node.mk "container" witSetAttrs
          (flatTriples 0 (selIdxOf witItems3) witItems3 0 (0 + 1)),
          multiWarnings witItems3, 0 + 1 + witItems3.length) ∧
      multiWarnings witItems3 =
        (selectedAfterFirst witItems3).map
          (fun n => Warning.mk WarnKind.multipleSelected n) ∧
      (multiWarnings witItems3).length = witItems3.countP isSelTrue - 1 ∧
      (flatTriples 0 (selIdxOf witItems3) witItems3 0 (0 + 1))[3 * p]? =
        some (mkInput 0 (0 + 1 + p) true)) :=
  ⟨by decide, by decide, tab_lowering_multiple_selected_warnings "container"
    witSetAttrs witItems3 0 (by decide) (by decide)⟩

/-- C4 (amended): the transform is total on every tab-set whose children
all carry a `selected` flag and a (label, content) child pair — which
covers every tab-set whose children are all directive-built tab-items —
and then duplicate selection surfaces only as warnings.  It is NOT total
on arbitrary malformed children: a child without a `selected` attribute
(any non-tab-item node, e.g. a paragraph) makes the transform raise a
key-lookup error instead of warning, see
`tab_lowering_not_total_counterexample`. -/
theorem tab_lowering_total_on_wellformed (k : String) (a : Attrs)
    (items : List Node) (c : Nat) (hwf : items.all wfItem = true) :
    applyTabSet c (Node.mk k a items) =
      .ok (Node.mk k a (flatTriples c (selIdxOf items) items 0 (c + 1)),
        multiWarnings items, c + 1 + items.length) :=
  applyTabSet_eq k a c hwf

/-- C4 witness: the two-item tab-set lowers without error. -/
theorem tab_lowering_total_on_wellformed_witness :
    witItems.all wfItem = true ∧
    applyTabSet 1 (Node.mk "container" witSetAttrs witItems) =
      .ok (Node.mk "container" witSetAttrs
        (flatTriples 1 (selIdxOf witItems) witItems 0 (1 + 1)),
        multiWarnings witItems, 1 + 1 + witItems.length) :=
  ⟨by decide, tab_lowering_total_on_wellformed "container" witSetAttrs witItems 1
    (by decide)⟩

/-- C4 counterexample: a tab-set whose only child is a paragraph is a
tab-set node, yet the transform aborts with a key-lookup error (reading
the absent `selected` attribute raises `KeyError` in the Python code)
instead of producing a flat structure with a warning. -/
theorem tab_lowering_not_total_counterexample :
    is_component badTabSet "tab-set" = true ∧
    applyTabSet 0 badTabSet = .error (LowerErr.keyError paraNode) :=
  ⟨rfl, rfl⟩

/-- C5 (amended): lowering is NOT idempotent.  The lowered tab-set keeps
its tab-set component tag, so a second run of the transform finds it
again (it is in its own `findTabSets` traversal), and re-applying the
per-set lowering to it aborts with a key-lookup error on the first
lowered input marker (which has no `selected` attribute) — a no-op is
impossible. -/
theorem tab_lowering_reapply_errors (k : String) (a : Attrs)
    (items : List Node) (c c2 : Nat)
    (hwf : items.all wfItem = true) (hne : items.isEmpty = false) :
    ∃ cs ws cEnd,
      applyTabSet c (Node.mk k a items) = .ok (Node.mk k a cs, ws, cEnd) ∧
      (is_component (Node.mk k a items) "tab-set" = true →
        Node.mk k a cs ∈ findTabSets (Node.mk k a cs)) ∧
      applyTabSet c2 (Node.mk k a cs) =
        .error (LowerErr.keyError (mkInput c (c + 1) ((0 : Nat) == selIdxOf items))) := by
  refine ⟨flatTriples c (selIdxOf items) items 0 (c + 1), multiWarnings items,
    c + 1 + items.length, applyTabSet_eq k a c hwf, ?_, ?_⟩
  · intro htag
    have hcond : (Attrs.designComponent a == some "tab-set") = true := by
      simpa [is_component, Node.attrs] using htag
    rw [findTabSets, hcond]
    simp
  · cases items with
    | nil => simp at hne
    | cons x xs =>
      simp [flatTriples, applyTabSet, Node.children, scanSelected, mkInput, Node.attrs]

/-- C5 witness for the amended claim: the two-item tab-set. -/
theorem tab_lowering_reapply_errors_witness :
    witItems.all wfItem = true ∧ witItems.isEmpty = false ∧
    (∃ cs ws cEnd,
      applyTabSet 0 (Node.mk "container" witSetAttrs witItems) =
        .ok (Node.mk "container" witSetAttrs cs, ws, cEnd) ∧
      (is_component (Node.mk "container" witSetAttrs witItems) "tab-set" = true →
        Node.mk "container" witSetAttrs cs ∈
          findTabSets (Node.mk "container" witSetAttrs cs)) ∧
      applyTabSet 9 (Node.mk "container" witSetAttrs cs) =
        .error (LowerErr.keyError (mkInput 0 (0 + 1) ((0 : Nat) == selIdxOf witItems)))) :=
  ⟨by decide, by decide, tab_lowering_reapply_errors "container" witSetAttrs
    witItems 0 9 (by decide) (by decide)⟩

/-- C5 counterexample: lowering the one-item tab-set `witSet1` yields
`witOnceLowered`, which still carries the tab-set component tag; running
the per-set lowering on it again is not a no-op but an error (the first
lowered child, an input marker, has no `selected` attribute). -/
theorem tab_lowering_second_apply_counterexample :
    applyTabSet 0 witSet1 = .ok (witOnceLowered, [], 2) ∧
    is_component witOnceLowered "tab-set" = true ∧
    applyTabSet 2 witOnceLowered = .error (LowerErr.keyError (mkInput 0 1 true)) :=
  ⟨rfl, rfl, rfl⟩

/-- C8: when a tab-set directive has (non-empty) content whose parsed
children include at least one non-tab-item node, `TabSetDirective.run`
emits exactly one shape warning, located at the first offending child
(the first child failing the tab-item test), stops checking further
children, and still returns the tab-set with all children as given. -/
theorem tab_set_first_shape_warning (cls : List String) (content : List String)
    (parsed : List Node)
    (hc : content.isEmpty = false)
    (hbad : parsed.all (fun n => is_component n "tab-item") = false) :
    ∃ w, parsed.find? (fun n => !(is_component n "tab-item")) = some w ∧
      tabSetRun cls content parsed =
        .ok ([create_component "tab-set" ("sd-tab-set" :: cls) parsed],
          [Warning.mk WarnKind.shape w]) := by
  obtain ⟨w, hw⟩ := find_nonTabItem_isSome hbad
  refine ⟨w, hw, ?_⟩
  simp only [tabSetRun]
  rw [if_neg (by simp [hc]), shapeWarnings_of_find hw]

/-- C8 witness: a tab-set whose second and third children are paragraphs
still triggers exactly one warning (at the second child). -/
theorem tab_set_first_shape_warning_witness :
    (["content"] : List String).isEmpty = false ∧
    [witItem false, paraNode, paraNode].all
      (fun n => is_component n "tab-item") = false ∧
    (∃ w, [witItem false, paraNode, paraNode].find?
        (fun n => !(is_component n "tab-item")) = some w ∧
      tabSetRun [] ["content"] [witItem false, paraNode, paraNode] =
        .ok ([create_component "tab-set" ("sd-tab-set" :: [])
          [witItem false, paraNode, paraNode]],
          [Warning.mk WarnKind.shape w])) :=
  ⟨by decide, by decide, tab_set_first_shape_warning [] ["content"]
    [witItem false, paraNode, paraNode] (by decide) (by decide)⟩

/-- C9: every directive builder (div, tab-set, tab-item) fails with a
"content required" directive error on empty block content, and the div
builder fails with a directive error naming the directive and the
offending value when the class-option parser rejects its argument; in
every failure case the result is an error carrying no node. -/
theorem directive_error_conditions
    (classOption : String → Option (List String)) (arg : String)
    (cls : List String) (parsed : List Node) (argO : Option String)
    (p : TabItemParams) (content : List String)
    (hc : content.isEmpty = false) (hbad : classOption arg = none) :
    divRun classOption argO [] parsed = .error (DirectiveErr.contentRequired "div") ∧
    tabSetRun cls [] parsed = .error (DirectiveErr.contentRequired "tab-set") ∧
    tabItemRun [] p = .error (DirectiveErr.contentRequired "tab-item") ∧
    divRun classOption (some arg) content parsed =
      .error (DirectiveErr.invalidClass "div" arg) := by
  refine ⟨rfl, rfl, rfl, ?_⟩
  simp [divRun, hc, hbad]

/-- The host's class-option parser rejecting every token: the concrete
instance used by the C9 witness. -/
def rejectClasses : String → Option (List String) := fun _ => none

/-- The authoring inputs of a minimal tab-item directive. -/
def witParams : TabItemParams :=
  { inlineNodes := [], contentNodes := [], selected := false, sync := none,
    classes := [], classLabel := [], classContent := [] }

/-- C9 witness: empty content and a rejected class value. -/
theorem directive_error_conditions_witness :
    (["x"] : List String).isEmpty = false ∧ rejectClasses "bad value" = none ∧
    (divRun rejectClasses (some "cls") [] [] =
      .error (DirectiveErr.contentRequired "div") ∧
    tabSetRun [] [] [] = .error (DirectiveErr.contentRequired "tab-set") ∧
    tabItemRun [] witParams = .error (DirectiveErr.contentRequired "tab-item") ∧
    divRun rejectClasses (some "bad value") ["x"] [] =
      .error (DirectiveErr.invalidClass "div" "bad value")) :=
  ⟨rfl, rfl, directive_error_conditions rejectClasses "bad value" [] []
    (some "cls") witParams ["x"] rfl rfl⟩

/-- C10: lowering a tab-set of directive-built tab-items gives, for each
item: a label marker carrying the full authoring label class list (the
default label class plus the per-item `class-label` overrides), the
authoring label's `syncId` and its inline children; the item's content
node placed untouched (with its own default-plus-override classes); all
`3 n` children are exactly these markers and contents, so the tab-item
wrapper's own classes (`sd-tab-item` plus the `class` option) appear
nowhere in the lowered structure. -/
theorem tab_lowering_label_content_preserved (k : String) (a : Attrs)
    (ps : List TabItemParams) (c : Nat) :
    ∃ ws cEnd cs,
      applyTabSet c (Node.mk k a (ps.map tabItemNode)) =
        .ok (Node.mk k a cs, ws, cEnd) ∧
      cs.length = 3 * ps.length ∧
      (∀ i, (h : i < ps.length) →
        cs[3 * i]? = some (mkInput c (c + 1 + i)
          (i == selIdxOf (ps.map tabItemNode))) ∧
        cs[3 * i + 1]? = some (Node.mk "sd_tab_label"
          { inputId := some (c + 1 + i),
            classes := "sd-tab-label" :: (ps.get ⟨i, h⟩).classLabel,
            syncId := (ps.get ⟨i, h⟩).sync }
          ((ps.get ⟨i, h⟩).inlineNodes)) ∧
        cs[3 * i + 2]? = some (tabItemContent (ps.get ⟨i, h⟩))) := by
  have hwf := tabItemNode_wf ps
  refine ⟨multiWarnings (ps.map tabItemNode), c + 1 + (ps.map tabItemNode).length,
    flatTriples c (selIdxOf (ps.map tabItemNode)) (ps.map tabItemNode) 0 (c + 1),
    applyTabSet_eq k a c hwf, ?_, ?_⟩
  · rw [flatTriples_length]
    simp
  · intro i h
    have h2 : i < (ps.map tabItemNode).length := by simpa using h
    have hg : (ps.map tabItemNode).get ⟨i, h2⟩ = tabItemNode (ps.get ⟨i, h⟩) := by
      simp [List.get_eq_getElem, List.getElem_map]
    refine ⟨?_, ?_, ?_⟩
    · simpa using flatTriples_get_input h2 c (selIdxOf (ps.map tabItemNode)) 0 (c + 1)
    · have hl := flatTriples_get_label h2 c (selIdxOf (ps.map tabItemNode)) 0 (c + 1)
      rw [hg, labelOf_tabItemNode, mkLabel_tabItemLabel] at hl
      exact hl
    · have hcn := flatTriples_get_content h2 c (selIdxOf (ps.map tabItemNode)) 0 (c + 1)
      rw [hg, contentOf_tabItemNode] at hcn
      exact hcn

/-- The authoring inputs of a fully decorated tab-item directive: inline
label text, content, `selected`, `sync`, and all three class options. -/
def witP : TabItemParams :=
  { inlineNodes := [Node.mk "Text" {} []], contentNodes := [paraNode],
    selected := true, sync := some "key1", classes := ["wrapper-extra"],
    classLabel := ["label-extra"], classContent := ["content-extra"] }

/-- C10 witness: a one-item tab-set built from `witP`. -/
theorem tab_lowering_label_content_preserved_witness :
    ∃ ws cEnd cs,
      applyTabSet 4 (Node.mk "container" witSetAttrs ([witP].map tabItemNode)) =
        .ok (Node.mk "container" witSetAttrs cs, ws, cEnd) ∧
      cs.length = 3 * [witP].length ∧
      (∀ i, (h : i < [witP].length) →
        cs[3 * i]? = some (mkInput 4 (4 + 1 + i)
          (i == selIdxOf ([witP].map tabItemNode))) ∧
        cs[3 * i + 1]? = some (Node.mk "sd_tab_label"
          { inputId := some (4 + 1 + i),
            classes := "sd-tab-label" :: ([witP].get ⟨i, h⟩).classLabel,
            syncId := ([witP].get ⟨i, h⟩).sync }
          (([witP].get ⟨i, h⟩).inlineNodes)) ∧
        cs[3 * i + 2]? = some (tabItemContent ([witP].get ⟨i, h⟩))) :=
  tab_lowering_label_content_preserved "container" witSetAttrs [witP] 4

/-- C6: when the static directory pre-existed and exactly one stylesheet
(with a different name than the new content-hashed one) is published,
`update_css_js` sets the content-changed flag (reset to false at the
start of the run) to true, removes that one old stylesheet — the old
entry is gone and the stylesheet files on disk are exactly the single
new one, whose name embeds the new hash — and the environment-update
step returns the complete set of known document names exactly when the
flag is set, returning nothing otherwise. -/
theorem publisher_change_detection (md5 : String → String) (css js : String)
    (s : PublishState) (old : FName × String) (docs : List String)
    (hex : s.staticExists = true)
    (hold : cssEntries s.files = [old])
    (hne : old.1 ≠ FName.designCss (md5 css)) :
    (update_css_js md5 css js s).cssChanged = true ∧
    cssEntries (update_css_js md5 css js s).files =
      [(FName.designCss (md5 css), css)] ∧
    old ∉ (update_css_js md5 css js s).files ∧
    update_css_links docs (update_css_js md5 css js s) = some docs ∧
    (∀ t : PublishState, t.cssChanged = false → update_css_links docs t = none) := by
  have hbeq : (old.1 == FName.designCss (md5 css)) = false := by
    cases hq : old.1 == FName.designCss (md5 css)
    · rfl
    · exact absurd (eq_of_beq hq) hne
  have habs : hasFile s.files (FName.designCss (md5 css)) = false := by
    rw [hasFile_eq_hasFile_cssEntries (isCss_designCss (md5 css)), hold,
      hasFile_cons, hbeq]
    rfl
  have holdCss : isCss old.1 = true := by
    have hmem : old ∈ cssEntries s.files := by rw [hold]; exact List.mem_singleton.mpr rfl
    exact (List.mem_filter.mp hmem).2
  rw [update_css_js_publish habs]
  refine ⟨hex, ?_, ?_, ?_, ?_⟩
  · show cssEntries ((jsStep js s.files).filter (fun p => !(isCss p.1)) ++
      [(FName.designCss (md5 css), css)]) = _
    rw [cssEntries_append, cssEntries_filter_out]
    rfl
  · show old ∉ (jsStep js s.files).filter (fun p => !(isCss p.1)) ++
      [(FName.designCss (md5 css), css)]
    intro hmem
    rcases List.mem_append.mp hmem with hml | hmr
    · have := (List.mem_filter.mp hml).2
      rw [holdCss] at this
      simp at this
    · have : old = (FName.designCss (md5 css), css) := List.mem_singleton.mp hmr
      exact hne (congrArg Prod.fst this)
  · show update_css_links docs _ = some docs
    simp [update_css_links, hex]
  · intro t ht
    simp [update_css_links, ht]

/-- The concrete md5 stand-in used by the publisher witnesses. -/
def witMd5 : String → String := fun _ => "newhash"

/-- A pre-existing static dir holding one stale stylesheet and the script. -/
def witOldState : PublishState :=
  { cssChanged := false, staticExists := true,
    files := [(FName.designCss "oldhash", "oldcss"), (FName.designJs, "jscontent")],
    htmlStaticPath := [], jsRefs := [], cssRefs := [] }

/-- C6 witness: publishing changed content over `witOldState`. -/
theorem publisher_change_detection_witness :
    witOldState.staticExists = true ∧
    cssEntries witOldState.files = [(FName.designCss "oldhash", "oldcss")] ∧
    (FName.designCss "oldhash", "oldcss").1 ≠ FName.designCss (witMd5 "css") ∧
    ((update_css_js witMd5 "css" "js" witOldState).cssChanged = true ∧
    cssEntries (update_css_js witMd5 "css" "js" witOldState).files =
      [(FName.designCss (witMd5 "css"), "css")] ∧
    (FName.designCss "oldhash", "oldcss") ∉
      (update_css_js witMd5 "css" "js" witOldState).files ∧
    update_css_links ["index", "page"] (update_css_js witMd5 "css" "js" witOldState) =
      some ["index", "page"] ∧
    (∀ t : PublishState, t.cssChanged = false →
      update_css_links ["index", "page"] t = none)) :=
  ⟨rfl, rfl, by decide, publisher_change_detection witMd5 "css" "js" witOldState
    (FName.designCss "oldhash", "oldcss") ["index", "page"] rfl rfl (by decide)⟩

/-- C7: publishing is idempotent.  After a first run from a state that
does not yet hold the hash-named stylesheet, the file exists; a second
run with the same content finds it and returns early — the files on disk
are left untouched, the content-changed flag is false after the second
run, and exactly one stylesheet (the hash-named one) is on disk. -/
theorem publisher_idempotent (md5 : String → String) (css js : String)
    (s : PublishState)
    (habs : hasFile s.files (FName.designCss (md5 css)) = false) :
    hasFile (update_css_js md5 css js s).files (FName.designCss (md5 css)) = true ∧
    (update_css_js md5 css js (update_css_js md5 css js s)).files =
      (update_css_js md5 css js s).files ∧
    (update_css_js md5 css js (update_css_js md5 css js s)).cssChanged = false ∧
    cssEntries (update_css_js md5 css js (update_css_js md5 css js s)).files =
      [(FName.designCss (md5 css), css)] := by
  have h1 := @update_css_js_publish md5 css js s habs
  have hpres : hasFile (update_css_js md5 css js s).files
      (FName.designCss (md5 css)) = true := by
    rw [h1]
    show hasFile ((jsStep js s.files).filter (fun p => !(isCss p.1)) ++
      [(FName.designCss (md5 css), css)]) (FName.designCss (md5 css)) = true
    rw [hasFile_append]
    have hsingle : hasFile [(FName.designCss (md5 css), css)]
        (FName.designCss (md5 css)) = true := by
      simp [hasFile]
    rw [hsingle, Bool.or_true]
  have hjs : hasFile (update_css_js md5 css js s).files FName.designJs = true := by
    rw [h1]
    show hasFile ((jsStep js s.files).filter (fun p => !(isCss p.1)) ++
      [(FName.designCss (md5 css), css)]) FName.designJs = true
    rw [hasFile_append,
      hasFile_filter_nonCss isCss_designJs (hasFile_jsStep_self js s.files),
      Bool.true_or]
  have hjsStep : jsStep js (update_css_js md5 css js s).files =
      (update_css_js md5 css js s).files := by
    unfold jsStep
    rw [if_pos hjs]
  have h2 := @update_css_js_early md5 css js (update_css_js md5 css js s) hpres
  refine ⟨hpres, ?_, ?_, ?_⟩
  · rw [h2]
    exact hjsStep
  · rw [h2]
  · rw [h2]
    show cssEntries (jsStep js (update_css_js md5 css js s).files) = _
    rw [hjsStep, h1]
    show cssEntries ((jsStep js s.files).filter (fun p => !(isCss p.1)) ++
      [(FName.designCss (md5 css), css)]) = _
    rw [cssEntries_append, cssEntries_filter_out]
    rfl

/-- An empty build-output state: fresh build, nothing published yet. -/
def witFreshState : PublishState :=
  { cssChanged := false, staticExists := false, files := [],
    htmlStaticPath := [], jsRefs := [], cssRefs := [] }

/-- C7 witness: two runs over a fresh output directory. -/
theorem publisher_idempotent_witness :
    hasFile witFreshState.files (FName.designCss (witMd5 "css")) = false ∧
    (hasFile (update_css_js witMd5 "css" "js" witFreshState).files
      (FName.designCss (witMd5 "css")) = true ∧
    (update_css_js witMd5 "css" "js"
        (update_css_js witMd5 "css" "js" witFreshState)).files =
      (update_css_js witMd5 "css" "js" witFreshState).files ∧
    (update_css_js witMd5 "css" "js"
        (update_css_js witMd5 "css" "js" witFreshState)).cssChanged = false ∧
    cssEntries (update_css_js witMd5 "css" "js"
        (update_css_js witMd5 "css" "js" witFreshState)).files =
      [(FName.designCss (witMd5 "css"), "css")]) :=
  ⟨rfl, publisher_idempotent witMd5 "css" "js" witFreshState rfl⟩

end SphinxDesign
